import Mathlib

/-!
Shallow embedding of the callsign subsystem of the oeradio-mcp repository.

The TypeScript sources embedded here are:
  * `src/tools/callsign/parser/normalize.ts` (normalizeEntry, normalizeName,
    formatName, parseLocation, sortEntries),
  * `src/tools/callsign/parser/validate.ts` (validateDatabase, isValidCallsign),
  * `src/tools/callsign/validate.ts` (parseCallsign, validateCallsign,
    validateSuffix, isClubSuffix),
  * `src/tools/callsign/sources/local.ts` (lookupLocal, checkSuffixAvailability),
  * `src/tools/callsign/availability.ts` (checkAvailability),
  * `src/tools/callsign/suggest.ts` (calculateCwScore, calculatePhoneticScore,
    generateCandidatesFromName, generateSuggestions),
  * `src/tools/callsign/lookup.ts` (getCachedLookup, setCachedLookup,
    lookupCallsign).

Modelling conventions:
  * JavaScript strings are Lean `String` values, and all character level
    operations are defined on `String.data` so that they reduce by `decide`.
    The data processed by this code is ASCII, so `toUpperCase`/`toLowerCase`
    are modelled by `Char.toUpper`/`Char.toLower` and `trim` by stripping
    `Char.isWhitespace` characters from both ends.
  * IEEE double arithmetic in the scoring functions is modelled exactly over
    `ℚ`; the claims proved about the scores only use order facts that are
    insensitive to the tiny rounding differences.
  * `Date.now()` is an explicit `Nat` parameter (milliseconds), the in-memory
    `Map` cache is an association list exposing exactly the get/set/delete
    view the code uses, and the two network sources are oracle functions
    supplied through an environment record.
-/

/-! ## Generic JavaScript string primitives -/

/-- Uppercase a string character by character, as `String.prototype.toUpperCase`
does on the ASCII data handled by this repository. -/
def jsToUpper (s : String) : String :=
  ⟨s.data.map Char.toUpper⟩

/-- Lowercase a string character by character, as `String.prototype.toLowerCase`
does on ASCII data. -/
def jsToLower (s : String) : String :=
  ⟨s.data.map Char.toLower⟩

/-- Drop whitespace from both ends of a character list. -/
def trimChars (l : List Char) : List Char :=
  ((l.dropWhile Char.isWhitespace).reverse.dropWhile Char.isWhitespace).reverse

/-- Model of `String.prototype.trim`. -/
def jsTrim (s : String) : String :=
  ⟨trimChars s.data⟩

/-- The `x.toUpperCase().trim()` normalization used throughout the sources. -/
def jsNormalize (s : String) : String :=
  jsTrim (jsToUpper s)

mutual

/-- Helper of `splitWsJS`: accumulating the current piece (reversed). -/
def splitWsGo : List Char → List Char → List String
  | [], acc => [⟨acc.reverse⟩]
  | c :: rest, acc =>
    if c.isWhitespace then ⟨acc.reverse⟩ :: splitWsSkip rest
    else splitWsGo rest (c :: acc)

/-- Helper of `splitWsJS`: consuming a whitespace run. -/
def splitWsSkip : List Char → List String
  | [] => [""]
  | c :: rest => if c.isWhitespace then splitWsSkip rest else splitWsGo rest [c]

end

/-- Model of the JavaScript `s.split(/\s+/)`: pieces between maximal
whitespace runs, with an empty piece produced by a leading or trailing run. -/
def splitWsJS (s : String) : List String :=
  splitWsGo s.data []

/-- Model of the JavaScript single character `s.split(sep)`. -/
def splitCh (sep : Char) : List Char → List (List Char)
  | [] => [[]]
  | c :: rest =>
    if c = sep then [] :: splitCh sep rest
    else
      match splitCh sep rest with
      | p :: ps => (c :: p) :: ps
      | [] => [[c]]

/-- Model of the JavaScript `Array.prototype.join(sep)` on strings. -/
def joinWith (sep : String) : List String → String
  | [] => ""
  | [x] => x
  | x :: y :: xs => ⟨x.data ++ sep.data ++ (joinWith sep (y :: xs)).data⟩

/-- Substring containment on character lists, the model of
`String.prototype.includes`. -/
def containsSub (needle : List Char) : List Char → Bool
  | [] => needle.isEmpty
  | c :: rest => needle.isPrefixOf (c :: rest) || containsSub needle rest

/-- Model of `String.prototype.startsWith` for a literal character prefix. -/
def hasPrefixChars (p : List Char) (s : String) : Bool :=
  p.isPrefixOf s.data

/-- Concatenation of strings at the character level; used to build the
template literal messages so that their data reduces definitionally. -/
def strCat (l : List String) : String :=
  ⟨(l.map String.data).flatten⟩

/-- Character class `[A-Z]`. -/
def isUpperAZ (c : Char) : Bool :=
  65 ≤ c.toNat && c.toNat ≤ 90

/-- Character class `[0-9]`. -/
def isDigit09 (c : Char) : Bool :=
  48 ≤ c.toNat && c.toNat ≤ 57

/-- Character class `[A-Z0-9]`. -/
def isUpperAlnum (c : Char) : Bool :=
  isUpperAZ c || isDigit09 c

/-- Numeric value of a decimal digit character. -/
def digitVal (c : Char) : Nat :=
  c.toNat - 48

/-- Leading decimal digit parse used by the model of `parseInt`. -/
def digitsVal (l : List Char) : Option Nat :=
  let ds := l.takeWhile isDigit09
  if ds = [] then none
  else some (ds.foldl (fun a c => a * 10 + digitVal c) 0)

/-- Model of `parseInt(s, 10)`: skip leading whitespace, optional sign,
collect leading digits, `none` standing for `NaN`. -/
def jsParseInt (s : String) : Option Int :=
  let l := s.data.dropWhile Char.isWhitespace
  match l with
  | '-' :: rest => (digitsVal rest).map (fun n => -(n : Int))
  | '+' :: rest => (digitsVal rest).map (fun n => (n : Int))
  | _ => (digitsVal l).map (fun n => (n : Int))

/-- Model of `Math.round` over exact rationals: round half toward positive
infinity. -/
def jsRound (q : ℚ) : ℤ :=
  Int.floor (q + 1 / 2)

/-- Two decimal rounding `Math.round(x * 100) / 100` used by both scores. -/
def round2 (q : ℚ) : ℚ :=
  (jsRound (q * 100) : ℚ) / 100

/-! ## Data model (`parser/types.ts` and `types.ts`) -/

/-- Raw row produced by the line parser (interface `RawCallsignRow`). -/
structure RawCallsignRow where
  callsign : String
  name : String
  location : String
  address : String
  licenseClass : String
deriving Repr, DecidableEq

/-- Canonical record (interface `ParsedCallsign`). The source field `prefix`
is named `pfx` here because `prefix` is reserved in this development. -/
structure ParsedCallsign where
  callsign : String
  pfx : String
  district : Int
  suffix : String
  name : String
  qth : String
  plz : String
  address : String
  licenseClass : Int
  isClub : Bool
  isHidden : Bool
deriving Repr, DecidableEq

/-- Versioned database (interface `CallsignDatabase`). -/
structure CallsignDatabase where
  version : String
  sourceUrl : String
  parsedAt : String
  count : Int
  legalNotice : String
  entries : List ParsedCallsign
deriving Repr

/-- Aggregate statistics (interface `ValidationStats`); the two JavaScript
count objects are modelled as total functions defaulting to zero. -/
structure ValidationStats where
  total : Nat
  byDistrict : Int → Nat
  byLicenseClass : Int → Nat
  clubStations : Nat
  hiddenEntries : Nat
  duplicates : Nat

/-- Validation outcome (interface `ValidationReport`). -/
structure ValidationReport where
  errors : List String
  warnings : List String
  stats : ValidationStats

/-! ## Normalizer (`parser/normalize.ts`) -/

/-- Marker sequence used by the source registry for anonymized holders. -/
def hiddenMarker : String := "*-*-*"

/-- Title tokens stripped by `normalizeName`. -/
def titles : List String :=
  ["ING", "ING.", "MAG", "MAG.", "DR", "DR.", "DIPL", "DIPL.",
   "DIPL.-ING", "DIPL.-ING.", "JUN", "JUN.", "SEN", "SEN.",
   "BAKK", "BAKK.", "BSC", "BSC.", "MSC", "MSC.", "MBA",
   "PROF", "PROF.", "UNIV.-PROF", "UNIV.-PROF.", "DKFM", "DKFM.",
   "OING", "OING.", "BAUING", "BAUING.", "BMSTR", "BMSTR."]

/-- Particles kept lowercase by `formatName`. -/
def lowerParticles : List String :=
  ["von", "van", "de", "der", "den", "du", "la", "le"]

/-- The `charAt(0).toUpperCase() + slice(1).toLowerCase()` title casing. -/
def upperFirst (s : String) : String :=
  match s.data with
  | [] => ""
  | c :: rest => ⟨Char.toUpper c :: rest.map Char.toLower⟩

/-- Branch of `formatName` for a piece that contains no hyphen. -/
def formatPiece (s : String) : String :=
  if s = "" then ""
  else if lowerParticles.contains (jsToLower s) then jsToLower s
  else upperFirst s

/-- Model of `formatName`. The source recurses on the pieces of
`name.split('-')`; since those pieces never contain the separator, the
recursive call always lands in the hyphen free branch, inlined here as
`formatPiece`. -/
def formatName (s : String) : String :=
  if s = "" then ""
  else if s.data.contains '-' then
    joinWith "-" ((splitCh '-' s.data).map (fun p => formatPiece ⟨p⟩))
  else formatPiece s

/-- Token list of `normalizeName`: split on whitespace runs, then drop the
tokens whose uppercase form is in the fixed title list. -/
def nameTokens (name : String) : List String :=
  (splitWsJS name).filter (fun p => !(titles.contains (jsToUpper p)))

/-- Model of `normalizeName`. -/
def normalizeName (name : String) : String :=
  if name = "" || name = hiddenMarker then ""
  else
    let nameParts := nameTokens name
    if nameParts.length = 0 then name
    else if 2 ≤ nameParts.length then
      let lastName := nameParts.headD ""
      let firstName := joinWith " " (nameParts.drop 1)
      strCat [formatName firstName, " ", formatName lastName]
    else formatName (nameParts.headD "")

/-- Match of the regex `^(\d{4})\s+(.+)$` against a location string,
returning the postal code and the raw locality capture. -/
def matchPlzLocation : List Char → Option (String × List Char)
  | d1 :: d2 :: d3 :: d4 :: rest =>
    if isDigit09 d1 && isDigit09 d2 && isDigit09 d3 && isDigit09 d4 then
      match rest with
      | [] => none
      | c :: _ =>
        if c.isWhitespace then
          let after := rest.dropWhile Char.isWhitespace
          if after.isEmpty then
            -- the whitespace run is the whole remainder: the greedy `\s+`
            -- backtracks one character so that `.+` can still match
            if 2 ≤ rest.length then some (⟨[d1, d2, d3, d4]⟩, rest.drop (rest.length - 1))
            else none
          else some (⟨[d1, d2, d3, d4]⟩, after)
        else none
    else none
  | _ => none

/-- Model of `parseLocation`, returning `(plz, qth)`. -/
def parseLocation (location : String) : String × String :=
  if location = "" || location = hiddenMarker then ("", "")
  else
    match matchPlzLocation location.data with
    | some (plz, qthRaw) => (plz, jsTrim ⟨qthRaw⟩)
    | none => ("", jsTrim location)

/-- Match of the regex `^(OE)([0-9])([A-Z]{1,4})$` used by `normalizeEntry`,
returning the district digit and the suffix characters. -/
def matchOeCallsign (s : String) : Option (Char × List Char) :=
  match s.data with
  | 'O' :: 'E' :: d :: rest =>
    if isDigit09 d && 1 ≤ rest.length && rest.length ≤ 4 && rest.all isUpperAZ then
      some (d, rest)
    else none
  | _ => none

/-- License class parse `parseInt(raw.licenseClass, 10) || 1`: both `NaN`
and `0` are falsy, so they default to `1`. -/
def licenseClassOf (s : String) : Int :=
  match jsParseInt s with
  | none => 1
  | some n => if n = 0 then 1 else n

/-- Model of `normalizeEntry`; `none` models the rejected (logged and
dropped) row. -/
def normalizeEntry (raw : RawCallsignRow) : Option ParsedCallsign :=
  match matchOeCallsign raw.callsign with
  | none => none
  | some (d, suffixChars) =>
    let district : Int := (digitVal d : Int)
    let suffix : String := ⟨suffixChars⟩
    let isHidden := raw.name = hiddenMarker || containsSub hiddenMarker.data raw.name.data
    let name := if isHidden then "" else normalizeName raw.name
    let plzQth := parseLocation raw.location
    let licenseClass := licenseClassOf raw.licenseClass
    let isClub := hasPrefixChars ['X'] suffix
    some
      { callsign := raw.callsign
        pfx := "OE"
        district := district
        suffix := suffix
        name := name
        qth := if isHidden then "" else plzQth.2
        plz := if isHidden then "" else plzQth.1
        address := if isHidden then "" else raw.address
        licenseClass := licenseClass
        isClub := isClub
        isHidden := isHidden }

/-- Model of `sortEntries`: a fresh sequence sorted by callsign. The source
comparator `localeCompare` is modelled by the lexicographic string order,
with which it agrees on the uppercase alphanumeric callsign strings. -/
def sortEntries (entries : List ParsedCallsign) : List ParsedCallsign :=
  entries.mergeSort (fun a b => a.callsign ≤ b.callsign)

/-! ## Database validator (`parser/validate.ts`) -/

/-- Model of `isValidCallsign`: the regex `^OE[0-9][A-Z]{1,4}$`. -/
def isValidCallsign (callsign : String) : Bool :=
  (matchOeCallsign callsign).isSome

/-- Count of database entries for one district; this is the value of
`stats.byDistrict[d]`, with `0` standing for an absent key. -/
def byDistrictCount (entries : List ParsedCallsign) (d : Int) : Nat :=
  (entries.filter (fun e => e.district = d)).length

/-- Count of database entries for one license class. -/
def byLicenseClassCount (entries : List ParsedCallsign) (c : Int) : Nat :=
  (entries.filter (fun e => e.licenseClass = c)).length

/-- Template `Duplicate callsign: ${entry.callsign}`. -/
def duplicateErr (cs : String) : String :=
  strCat ["Duplicate callsign: ", cs]

/-- Template `Invalid callsign format: ${entry.callsign}`. -/
def invalidFormatErr (cs : String) : String :=
  strCat ["Invalid callsign format: ", cs]

/-- Template for the district mismatch error; the expected value is the
`parseInt` of the third character, printed as `NaN` when that parse fails. -/
def mismatchErr (cs : String) (expected : Option Nat) (got : Int) : String :=
  strCat ["District mismatch for ", cs, ": expected ",
    (match expected with | some n => toString n | none => "NaN"),
    ", got ", toString got]

/-- Template `No entries for district ${d}`. -/
def noEntriesErr (d : Int) : String :=
  strCat ["No entries for district ", toString d]

/-- Template `Very few entries for district ${d}: ${n}`. -/
def veryFewWarn (d : Int) (n : Nat) : String :=
  strCat ["Very few entries for district ", toString d, ": ", toString n]

/-- Template `Invalid district number: ${d}`. -/
def invalidDistrictErr (d : Int) : String :=
  strCat ["Invalid district number: ", toString d]

/-- Expected district of an entry: `parseInt(entry.callsign.charAt(2), 10)`,
`none` standing for `NaN`. -/
def expectedDistrictOf (cs : String) : Option Nat :=
  match cs.data.drop 2 with
  | c :: _ => if isDigit09 c then some (digitVal c) else none
  | [] => none

/-- Errors produced by the per entry pass of `validateDatabase`, in source
order, threading the `seen` set of already visited callsigns. -/
def entryPassErrors : List ParsedCallsign → List String → List String
  | [], _ => []
  | e :: rest, seen =>
    (if seen.contains e.callsign then [duplicateErr e.callsign] else [])
    ++ (if !(isValidCallsign e.callsign) then [invalidFormatErr e.callsign] else [])
    ++ (match expectedDistrictOf e.callsign with
        | some n => if e.district = (n : Int) then [] else [mismatchErr e.callsign (some n) e.district]
        | none => [mismatchErr e.callsign none e.district])
    ++ entryPassErrors rest (e.callsign :: seen)

/-- Warnings produced by the per entry pass of `validateDatabase`. -/
def entryPassWarns : List ParsedCallsign → List String
  | [] => []
  | e :: rest =>
    (if e.licenseClass < 1 || 4 < e.licenseClass then
      [strCat ["Unusual license class for ", e.callsign, ": ", toString e.licenseClass]] else [])
    ++ (if e.suffix.data.length < 1 || 4 < e.suffix.data.length then
      [strCat ["Unusual suffix length for ", e.callsign, ": ", e.suffix]] else [])
    ++ entryPassWarns rest

/-- District plausibility errors: `No entries for district d` for each
district 1 to 9 with no record. -/
def districtErrors (entries : List ParsedCallsign) : List String :=
  (([1, 2, 3, 4, 5, 6, 7, 8, 9] : List Int).map (fun d =>
    if byDistrictCount entries d = 0 then [noEntriesErr d] else [])).flatten

/-- District plausibility warnings: `Very few entries for district d` for
each district 1 to 9 with between 1 and 99 records. -/
def districtWarns (entries : List ParsedCallsign) : List String :=
  (([1, 2, 3, 4, 5, 6, 7, 8, 9] : List Int).map (fun d =>
    if byDistrictCount entries d = 0 then []
    else if byDistrictCount entries d < 100 then [veryFewWarn d (byDistrictCount entries d)]
    else [])).flatten

/-- Errors for district keys outside 0 to 9; the key set of
`stats.byDistrict` is the deduplicated list of districts present. -/
def invalidDistrictKeyErrors (entries : List ParsedCallsign) : List String :=
  (((entries.map (fun e => e.district)).dedup).filter (fun d => d < 0 || 9 < d)).map
    invalidDistrictErr

/-- Decimal rendering with one fractional digit of a nonnegative rational,
the model of `toFixed(1)` for the hidden entry percentage. -/
def qToFixed1 (q : ℚ) : String :=
  let scaled := (jsRound (q * 10)).toNat
  strCat [toString (scaled / 10), ".", toString (scaled % 10)]

/-- Number of duplicate rows counted by `stats.duplicates`. -/
def duplicatesCount : List ParsedCallsign → List String → Nat
  | [], _ => 0
  | e :: rest, seen =>
    (if seen.contains e.callsign then 1 else 0) + duplicatesCount rest (e.callsign :: seen)

/-- Statistics object accumulated by the single pass of `validateDatabase`. -/
def statsOf (db : CallsignDatabase) : ValidationStats :=
  { total := db.entries.length
    byDistrict := fun d => byDistrictCount db.entries d
    byLicenseClass := fun c => byLicenseClassCount db.entries c
    clubStations := (db.entries.filter (fun e => e.isClub)).length
    hiddenEntries := (db.entries.filter (fun e => e.isHidden)).length
    duplicates := duplicatesCount db.entries [] }

/-- Model of `validateDatabase`. The imperative single pass pushes into the
`errors` and `warnings` arrays; each array is reproduced here phase by phase
in push order. -/
def validateDatabase (db : CallsignDatabase) : ValidationReport :=
  let stats := statsOf db
  let lowCountWarns :=
    if db.entries.length < 5000 then
      [strCat ["Unusually low entry count: ", toString db.entries.length, " (expected ~6000+)"]]
    else []
  let class1Warns :=
    if byLicenseClassCount db.entries 1 = 0 || byLicenseClassCount db.entries 1 < 1000 then
      [strCat ["Unusually few class 1 licenses: ", toString (byLicenseClassCount db.entries 1)]]
    else []
  let hiddenWarns :=
    if db.entries.length ≠ 0 ∧
        (30 : ℚ) < (stats.hiddenEntries : ℚ) / (db.entries.length : ℚ) * 100 then
      [strCat ["High percentage of hidden entries: ",
        qToFixed1 ((stats.hiddenEntries : ℚ) / (db.entries.length : ℚ) * 100), "%"]]
    else []
  { errors := entryPassErrors db.entries []
      ++ districtErrors db.entries
      ++ invalidDistrictKeyErrors db.entries
    warnings := entryPassWarns db.entries
      ++ lowCountWarns
      ++ districtWarns db.entries
      ++ class1Warns
      ++ hiddenWarns
    stats := stats }

/-! ## Runtime callsign validation (`validate.ts`) -/

/-- Minimum suffix length from `SUFFIX_RULES`. -/
def suffixRuleMin (isClub : Bool) : Nat :=
  if isClub then 2 else 2

/-- Maximum suffix length from `SUFFIX_RULES`. -/
def suffixRuleMax (isClub : Bool) : Nat :=
  if isClub then 4 else 3

/-- Parsed shape returned by `parseCallsign`. -/
structure CsParsed where
  pfx : String
  district : Int
  suffix : String
deriving Repr, DecidableEq

/-- Model of `parseCallsign`: normalize, then match `^(OE)(\d)([A-Z]{2,4})$`. -/
def parseCallsign (callsign : String) : Option CsParsed :=
  let normalized := jsNormalize callsign
  match normalized.data with
  | 'O' :: 'E' :: d :: rest =>
    if isDigit09 d && 2 ≤ rest.length && rest.length ≤ 4 && rest.all isUpperAZ then
      some { pfx := "OE", district := (digitVal d : Int), suffix := ⟨rest⟩ }
    else none
  | _ => none

/-- Model of `isClubSuffix`. -/
def isClubSuffix (suffix : String) : Bool :=
  hasPrefixChars ['X'] suffix

/-- Result shape of `validateCallsign` (interface `ValidationResult`). -/
structure CsValidationResult where
  valid : Bool
  errors : List String
  warnings : List String
  parsed : Option CsParsed
deriving Repr, DecidableEq

/-- Specific errors produced by `validateCallsign` when `parseCallsign`
fails, mirroring the nested conditionals of the source. -/
def parseFailErrors (normalized : String) : List String :=
  if !(hasPrefixChars ['O', 'E'] normalized) then
    ["Rufzeichen muss mit \"OE\" beginnen (österreichisches Präfix)"]
  else if normalized.data.length < 4 then
    ["Rufzeichen zu kurz (mindestens 4 Zeichen: OE + Bezirk + Suffix)"]
  else if 7 < normalized.data.length then
    ["Rufzeichen zu lang (maximal 7 Zeichen: OE + Bezirk + 4-Buchstaben-Suffix)"]
  else
    let secondChar := normalized.data.getD 2 ' '
    if !(isDigit09 secondChar) then
      [strCat ["Bezirksziffer fehlt oder ungültig: \"", ⟨[secondChar]⟩, "\" (muss 0-9 sein)"]]
    else
      let suffix : List Char := normalized.data.drop 3
      if suffix.length < 2 then ["Suffix zu kurz (mindestens 2 Buchstaben)"]
      else if 4 < suffix.length then ["Suffix zu lang (maximal 4 Buchstaben)"]
      else if !(suffix.all isUpperAZ) then
        ["Suffix enthält ungültige Zeichen (nur Buchstaben A-Z erlaubt)"]
      else []

/-- Model of `validateCallsign`. -/
def validateCallsign (callsign : String) : CsValidationResult :=
  let normalized := jsNormalize callsign
  if normalized = "" then
    { valid := false, errors := ["Rufzeichen darf nicht leer sein"], warnings := [], parsed := none }
  else
    let charErrors :=
      if !(normalized.data.all isUpperAlnum) then
        ["Rufzeichen enthält ungültige Zeichen (nur A-Z und 0-9 erlaubt)"]
      else []
    match parseCallsign normalized with
    | none =>
      { valid := false, errors := charErrors ++ parseFailErrors normalized,
        warnings := [], parsed := none }
    | some parsed =>
      let districtErrors :=
        if parsed.district < 0 || 9 < parsed.district then
          [strCat ["Ungültiger Bezirk: ", toString parsed.district, " (muss 0-9 sein)"]]
        else []
      let districtWarnings :=
        if !(parsed.district < 0 || 9 < parsed.district) && parsed.district = 0 then
          ["Bezirk 0 ist für Spezialfälle reserviert (z.B. außerhalb Hoheitsgebiet)"]
        else []
      let isClub := isClubSuffix parsed.suffix
      let minLen := suffixRuleMin isClub
      let maxLen := suffixRuleMax isClub
      let kindWord := if isClub then "Klub" else "Personal"
      let shortErrors :=
        if parsed.suffix.data.length < minLen then
          [strCat ["Suffix zu kurz (mindestens ", toString minLen, " Buchstaben für ",
            kindWord, "rufzeichen)"]]
        else []
      let longErrors :=
        if maxLen < parsed.suffix.data.length then
          [strCat ["Suffix zu lang (maximal ", toString maxLen, " Buchstaben für ",
            kindWord, "rufzeichen)"]]
        else []
      let clubWarnings := if isClub then ["Klubrufzeichen (Suffix beginnt mit X)"] else []
      let confusingWarnings :=
        if (["SOS", "XXX", "QRZ", "CQ"] : List String).contains parsed.suffix then
          [strCat ["Suffix \"", parsed.suffix, "\" könnte mit Betriebsabkürzungen verwechselt werden"]]
        else []
      let oiWarnings :=
        if parsed.suffix.data.any (fun c => c = 'O' || c = 'I') then
          ["Suffix enthält O oder I - kann mit 0 oder 1 verwechselt werden"]
        else []
      let errors := charErrors ++ districtErrors ++ shortErrors ++ longErrors
      { valid := errors.isEmpty
        errors := errors
        warnings := districtWarnings ++ clubWarnings ++ confusingWarnings ++ oiWarnings
        parsed := some parsed }

/-- Result shape of `validateSuffix`. -/
structure SuffixValidation where
  valid : Bool
  errors : List String
deriving Repr, DecidableEq

/-- Model of `validateSuffix`. -/
def validateSuffix (suffix : String) (isClub : Bool) : SuffixValidation :=
  let normalized := jsNormalize suffix
  if normalized = "" then
    { valid := false, errors := ["Suffix darf nicht leer sein"] }
  else
    let errors :=
      (if !(normalized.data.all isUpperAZ) then
        ["Suffix darf nur Buchstaben A-Z enthalten"] else [])
      ++ (if normalized.data.length < suffixRuleMin isClub then
        [strCat ["Suffix zu kurz (mindestens ", toString (suffixRuleMin isClub), " Buchstaben)"]] else [])
      ++ (if suffixRuleMax isClub < normalized.data.length then
        [strCat ["Suffix zu lang (maximal ", toString (suffixRuleMax isClub), " Buchstaben)"]] else [])
      ++ (if isClub && !(hasPrefixChars ['X'] normalized) then
        ["Klubrufzeichen-Suffix muss mit X beginnen"] else [])
      ++ (if !isClub && hasPrefixChars ['X'] normalized then
        ["Persönliches Rufzeichen-Suffix darf nicht mit X beginnen"] else [])
    { valid := errors.isEmpty, errors := errors }

/-! ## Local source (`sources/local.ts`) and lookup data model (`types.ts`) -/

/-- Provenance tag (type `CallsignSource`). -/
inductive CallsignSource where
  | fb
  | qrz
  | hamqth
  | notFound
deriving Repr, DecidableEq

/-- Entry extended with provenance (interface `CallsignEntry`). -/
structure CallsignEntryX where
  entry : ParsedCallsign
  source : CallsignSource
  lastUpdated : String
deriving Repr, DecidableEq

/-- Result of a lookup (interface `LookupResult`); the field `exists` of the
source is named `exists_` here. -/
structure LookupResult where
  exists_ : Bool
  data : Option CallsignEntryX
  source : CallsignSource
  warning : Option String
deriving Repr, DecidableEq

/-- Environment of the serving engine: the local database snapshot and the
two network sources as oracle functions from the queried callsign. -/
structure LookupEnv where
  dbEntries : List ParsedCallsign
  dbParsedAt : String
  qrzResult : String → LookupResult
  hamqthResult : String → LookupResult

/-- Model of `lookupLocal`. -/
def lookupLocal (env : LookupEnv) (callsign : String) : LookupResult :=
  let normalized := jsNormalize callsign
  match env.dbEntries.find? (fun e => e.callsign = normalized) with
  | none => { exists_ := false, data := none, source := .notFound, warning := none }
  | some entry =>
    { exists_ := true
      data := some { entry := entry, source := .fb, lastUpdated := env.dbParsedAt }
      source := .fb
      warning := none }

/-- Holder of a taken suffix as surfaced by `checkSuffixAvailability`. -/
structure TakenBy where
  district : Int
  callsign : String
  name : String
deriving Repr, DecidableEq

/-- Partition computed by `checkSuffixAvailability`. -/
structure AvailabilityParts where
  available_districts : List Int
  taken_districts : List Int
  taken_by : List TakenBy
deriving Repr, DecidableEq

/-- Model of `checkSuffixAvailability`; `none` for the district list selects
the default districts 1 to 9. -/
def checkSuffixAvailability (entries : List ParsedCallsign) (suffix : String)
    (districts : Option (List Int)) : AvailabilityParts :=
  let normalizedSuffix := jsNormalize suffix
  let districtsToCheck := districts.getD ([1, 2, 3, 4, 5, 6, 7, 8, 9] : List Int)
  districtsToCheck.foldl
    (fun acc district =>
      let testCallsign := strCat ["OE", toString district, normalizedSuffix]
      match entries.find? (fun e => e.callsign = testCallsign) with
      | some entry =>
        let holder : TakenBy :=
          { district := district
            callsign := entry.callsign
            name := if entry.isHidden then "[versteckt]" else entry.name }
        { acc with
          taken_districts := acc.taken_districts ++ [district]
          taken_by := acc.taken_by ++ [holder] }
      | none =>
        { acc with available_districts := acc.available_districts ++ [district] })
    { available_districts := [], taken_districts := [], taken_by := [] }

/-! ## Availability checker (`availability.ts`) -/

/-- Result shape of `checkAvailability` (interface `AvailabilityResult`). -/
structure AvailabilityResult where
  suffix : String
  available : Bool
  available_districts : List Int
  taken_districts : List Int
  taken_by : List TakenBy
deriving Repr, DecidableEq

/-- Model of `checkAvailability`. -/
def checkAvailability (entries : List ParsedCallsign) (suffix : String)
    (district : Option Int) : AvailabilityResult :=
  let normalized := jsNormalize suffix
  let isClub := hasPrefixChars ['X'] normalized
  let validation := validateSuffix normalized isClub
  if !validation.valid then
    { suffix := normalized, available := false, available_districts := [],
      taken_districts := [], taken_by := [] }
  else
    let districtsToCheck := match district with
      | some d => [d]
      | none => ([1, 2, 3, 4, 5, 6, 7, 8, 9] : List Int)
    let result := checkSuffixAvailability entries normalized (some districtsToCheck)
    { suffix := normalized
      available := !result.available_districts.isEmpty
      available_districts := result.available_districts
      taken_districts := result.taken_districts
      taken_by := result.taken_by }

/-! ## Suggestion generator (`suggest.ts`) -/

/-- The `MORSE_WEIGHTS` table. -/
def morseWeights : List (Char × ℚ) :=
  [('E', 1), ('T', 1),
   ('A', 2), ('I', 2), ('M', 2), ('N', 2),
   ('D', 3), ('G', 3), ('K', 3), ('O', 3), ('R', 3), ('S', 3), ('U', 3), ('W', 3),
   ('B', 4), ('C', 4), ('F', 4), ('H', 4), ('J', 4), ('L', 4), ('P', 4), ('Q', 4),
   ('V', 4), ('X', 4), ('Y', 4), ('Z', 4)]

/-- Per character weight `MORSE_WEIGHTS[char] || 4`. -/
def morseWeight (c : Char) : ℚ :=
  (morseWeights.lookup c).getD 4

/-- Model of `calculateCwScore`. -/
def calculateCwScore (suffix : String) : ℚ :=
  if suffix = "" then 0
  else
    let upper := (jsToUpper suffix).data
    let totalWeight := (upper.map morseWeight).sum
    let maxWeight : ℚ := upper.length * 4
    let minWeight : ℚ := upper.length * 1
    round2 (1 - ((totalWeight - minWeight) / (maxWeight - minWeight)))

/-- Character class `[AEIOU]`. -/
def isVowel (c : Char) : Bool :=
  c = 'A' || c = 'E' || c = 'I' || c = 'O' || c = 'U'

/-- Existence of two consecutive characters satisfying a class, the model of
a `[..]{2,}` regex test. -/
def hasRun2 (p : Char → Bool) : List Char → Bool
  | a :: b :: rest => (p a && p b) || hasRun2 p (b :: rest)
  | _ => false

/-- Existence of three consecutive characters satisfying a class, the model
of a `[..]{3,}` regex test. -/
def hasRun3 (p : Char → Bool) : List Char → Bool
  | a :: b :: c :: rest => (p a && p b && p c) || hasRun3 p (b :: c :: rest)
  | _ => false

/-- Existence of two given adjacent characters, the model of a two letter
regex test such as `/MN/`. -/
def hasPair (x y : Char) : List Char → Bool
  | a :: b :: rest => (a = x && b = y) || hasPair x y (b :: rest)
  | _ => false

/-- Penalty of the acoustically similar adjacent pairs list. -/
def similarPenalty (l : List Char) : ℚ :=
  (([('M', 'N'), ('N', 'M'), ('B', 'D'), ('D', 'B'), ('P', 'B'), ('B', 'P'),
     ('F', 'V'), ('V', 'F')] : List (Char × Char)).map
    (fun p => if hasPair p.1 p.2 l then (1 : ℚ) / 10 else 0)).sum

/-- Model of `calculatePhoneticScore`. -/
def calculatePhoneticScore (suffix : String) : ℚ :=
  if suffix = "" then 0
  else
    let upper := (jsToUpper suffix).data
    let vowels := (upper.filter isVowel).length
    let score1 : ℚ :=
      if vowels = 0 then 1 - 3 / 10
      else if vowels = upper.length then 1 - 1 / 10
      else 1 + 1 / 10 * (min vowels 2 : ℚ)
    let score2 := score1
      - (if hasRun2 (fun c => c = 'X' || c = 'Q' || c = 'Z') upper then (2 : ℚ) / 10 else 0)
      - (if hasRun3 (fun c => c = 'B' || c = 'C' || c = 'D' || c = 'G' || c = 'K' ||
          c = 'P' || c = 'T') upper then (2 : ℚ) / 10 else 0)
      - (if hasRun3 isVowel upper then (2 : ℚ) / 10 else 0)
    let score3 := score2 - (if upper.any (fun c => c = 'O' || c = 'I') then (1 : ℚ) / 10 else 0)
    let score4 := score3 - similarPenalty upper
    max 0 (min 1 (round2 score4))

/-- Options of `generateSuggestions` (interface `SuggestOptions`), with the
source defaults already resolved by the destructuring. -/
structure SuggestOptions where
  name : String
  preferred_district : Option Int
  max_results : Nat
  exclude_club : Bool
  min_phonetic_score : ℚ

/-- Scored suggestion (interface `CallsignSuggestion`). -/
structure CallsignSuggestion where
  suffix : String
  available_districts : List Int
  phonetic_score : ℚ
  cw_score : ℚ
  derivation : String
deriving DecidableEq

/-- State of the `addCandidate` closure: the `seen` set and the candidate
array in push order. -/
structure CandState where
  seen : List String
  out : List (String × String)

/-- Model of the `addCandidate` closure of `generateCandidatesFromName`. -/
def addCandidate (excludeClub : Bool) (st : CandState) (suffix derivation : String) :
    CandState :=
  let upper := jsToUpper suffix
  if upper.data.length < 2 || 3 < upper.data.length then st
  else if !(upper.data.all isUpperAZ) then st
  else if excludeClub && hasPrefixChars ['X'] upper then st
  else if st.seen.contains upper then st
  else { seen := upper :: st.seen, out := st.out ++ [(upper, derivation)] }

/-- Prefix of a string, the model of `substring(0, n)`. -/
def takeN (n : Nat) (s : String) : String :=
  ⟨s.data.take n⟩

/-- The `phoneticMap` table of curated variants for common first names. -/
def phoneticMap : List (String × List String) :=
  [("MICHAEL", ["MIC", "MIK", "MHL"]),
   ("THOMAS", ["TOM", "THS", "TMS"]),
   ("STEFAN", ["STF", "STE", "STN"]),
   ("ANDREAS", ["AND", "ADS", "ANS"]),
   ("CHRISTIAN", ["CHR", "CRS", "CHN"]),
   ("MARTIN", ["MAR", "MRT", "MTN"]),
   ("PETER", ["PET", "PTR", "PTE"]),
   ("FRANZ", ["FRZ", "FRA", "FNZ"]),
   ("WOLFGANG", ["WOL", "WFG", "WLF"]),
   ("HANS", ["HNS", "HAS", "HAN"]),
   ("JOSEF", ["JOS", "JSF", "JOE"]),
   ("KARL", ["KRL", "KAR", "KAL"]),
   ("HELMUT", ["HLM", "HMT", "HEL"])]

/-- The sequence of `addCandidate` attempts of `generateCandidatesFromName`
in source order, as pairs of suffix and derivation label. -/
def candidateAttempts (firstName lastName : String) : List (String × String) :=
  (if firstName ≠ "" ∧ lastName ≠ "" then
    [(strCat [takeN 1 firstName, takeN 1 lastName], "Initialen")]
    ++ (if 2 ≤ firstName.data.length then
      [(strCat [takeN 2 firstName, takeN 1 lastName], "Vorname + Initial")] else [])
    ++ (if 2 ≤ lastName.data.length then
      [(strCat [takeN 1 firstName, takeN 2 lastName], "Initial + Nachname")] else [])
  else [])
  ++ (if 2 ≤ firstName.data.length then [(takeN 2 firstName, "Vorname (2 Buchstaben)")] else [])
  ++ (if 3 ≤ firstName.data.length then [(takeN 3 firstName, "Vorname (3 Buchstaben)")] else [])
  ++ (if 2 ≤ lastName.data.length then [(takeN 2 lastName, "Nachname (2 Buchstaben)")] else [])
  ++ (if 3 ≤ lastName.data.length then [(takeN 3 lastName, "Nachname (3 Buchstaben)")] else [])
  ++ (let firstConsonants := takeN 3 ⟨firstName.data.filter (fun c => !(isVowel c))⟩
    if 2 ≤ firstConsonants.data.length then
      [(takeN 2 firstConsonants, "Konsonanten Vorname")]
      ++ (if 3 ≤ firstConsonants.data.length then [(firstConsonants, "Konsonanten Vorname")] else [])
    else [])
  ++ (if lastName ≠ "" then
    (let lastConsonants := takeN 3 ⟨lastName.data.filter (fun c => !(isVowel c))⟩
      if 2 ≤ lastConsonants.data.length then
        [(takeN 2 lastConsonants, "Konsonanten Nachname")]
      else [])
    else [])
  ++ (if 1 ≤ firstName.data.length ∧ 2 ≤ lastName.data.length then
    [(strCat ["Y", takeN 2 lastName], "Y + Nachname")] else [])
  ++ (match phoneticMap.lookup firstName with
    | some variants => variants.map (fun v => (v, strCat ["Phonetische Variante von ", firstName]))
    | none => [])

/-- Model of `generateCandidatesFromName`. The imperative sequence of
`addCandidate` calls is expressed as a fold over `candidateAttempts`. -/
def generateCandidatesFromName (name : String) (excludeClub : Bool) :
    List (String × String) :=
  let cleanName := jsTrim ⟨(jsToUpper name).data.filter (fun c => isUpperAZ c || c.isWhitespace)⟩
  let parts := (splitWsJS cleanName).filter (fun p => 0 < p.data.length)
  if parts = [] then []
  else
    let firstName := parts.headD ""
    let lastName := if 1 < parts.length then parts.getLastD "" else ""
    ((candidateAttempts firstName lastName).foldl
      (fun st a => addCandidate excludeClub st a.1 a.2)
      { seen := [], out := [] }).out

/-- Combined ranking score `0.6 * phonetic + 0.4 * cw`. -/
def combinedScore (s : CallsignSuggestion) : ℚ :=
  s.phonetic_score * (6 / 10) + s.cw_score * (4 / 10)

/-- Order relation induced by the sort comparator of `generateSuggestions`:
`suggestionLe a b` holds when the comparator allows `a` at or before `b`. -/
def suggestionLe (pref : Option Int) (a b : CallsignSuggestion) : Bool :=
  match pref with
  | some d =>
    if d ≠ 0 then
      let aIn := a.available_districts.contains d
      let bIn := b.available_districts.contains d
      if aIn && !bIn then true
      else if !aIn && bIn then false
      else decide (combinedScore b ≤ combinedScore a)
    else decide (combinedScore b ≤ combinedScore a)
  | none => decide (combinedScore b ≤ combinedScore a)

/-- Model of `generateSuggestions`. -/
def generateSuggestions (entries : List ParsedCallsign) (opts : SuggestOptions) :
    List CallsignSuggestion :=
  let candidates := generateCandidatesFromName opts.name opts.exclude_club
  let scored := candidates.filterMap (fun c =>
    let phonetic := calculatePhoneticScore c.1
    let cw := calculateCwScore c.1
    if phonetic < opts.min_phonetic_score then none
    else
      let districtsArg := match opts.preferred_district with
        | some d => if d = 0 then none else some [d]
        | none => none
      let availability := checkSuffixAvailability entries c.1 districtsArg
      if availability.available_districts.isEmpty then none
      else some { suffix := c.1
                  available_districts := availability.available_districts
                  phonetic_score := phonetic
                  cw_score := cw
                  derivation := c.2 })
  (scored.mergeSort (suggestionLe opts.preferred_district)).take opts.max_results

/-! ## Lookup engine with cache and fallback chain (`lookup.ts`) -/

/-- QRZ credentials (field `qrz` of `CallsignConfig`). -/
structure QrzCredentials where
  username : String
  password : String
deriving Repr, DecidableEq

/-- Configuration slice of `CallsignConfig` used by the lookup engine. -/
structure CallsignConfig where
  cacheEnabled : Bool
  cacheTTL : Nat
  qrz : Option QrzCredentials
deriving Repr, DecidableEq

/-- Model of `isQRZConfigured`: both credential strings present and truthy. -/
def isQRZConfigured (credentials : Option QrzCredentials) : Bool :=
  match credentials with
  | some c => c.username ≠ "" && c.password ≠ ""
  | none => false

/-- Options of `lookupCallsign`. -/
structure LookupOptions where
  skipCache : Bool
  localOnly : Bool
deriving Repr, DecidableEq

/-- Cache entry: a result with its write timestamp in milliseconds. -/
structure CacheEntry where
  result : LookupResult
  timestamp : Nat
deriving Repr, DecidableEq

/-- The in-memory `lookupCache` map, modelled through its key to value view. -/
abbrev LookupCache := List (String × CacheEntry)

/-- Model of `Map.prototype.get`. -/
def cacheGet (cache : LookupCache) (k : String) : Option CacheEntry :=
  (cache.find? (fun p => p.1 = k)).map (fun p => p.2)

/-- Model of `Map.prototype.set`. -/
def cacheSet (cache : LookupCache) (k : String) (v : CacheEntry) : LookupCache :=
  (k, v) :: cache.filter (fun p => p.1 ≠ k)

/-- Model of `Map.prototype.delete`. -/
def cacheDelete (cache : LookupCache) (k : String) : LookupCache :=
  cache.filter (fun p => p.1 ≠ k)

/-- Model of `getCachedLookup`; the returned cache reflects the lazy
eviction of an expired entry. -/
def getCachedLookup (config : CallsignConfig) (cache : LookupCache) (now : Nat)
    (callsign : String) : Option LookupResult × LookupCache :=
  if !config.cacheEnabled then (none, cache)
  else
    match cacheGet cache (jsToUpper callsign) with
    | none => (none, cache)
    | some cached =>
      if config.cacheTTL * 1000 < now - cached.timestamp then
        (none, cacheDelete cache (jsToUpper callsign))
      else (some cached.result, cache)

/-- Model of `setCachedLookup`. -/
def setCachedLookup (config : CallsignConfig) (cache : LookupCache) (now : Nat)
    (callsign : String) (result : LookupResult) : LookupCache :=
  if !config.cacheEnabled then cache
  else cacheSet cache (jsToUpper callsign) { result := result, timestamp := now }

/-- Warning attached to a QRZ hit on an OE callsign absent locally. -/
def qrzOeWarning : String :=
  "Rufzeichen in QRZ.com gefunden aber NICHT in offizieller österreichischer Liste (fb.gv.at) - möglicherweise Schwarzfunker, abgelaufene Lizenz oder veraltete QRZ-Daten"

/-- Warning attached to a HamQTH hit on an OE callsign absent locally. -/
def hamqthOeWarning : String :=
  "Rufzeichen in HamQTH gefunden aber NICHT in offizieller österreichischer Liste (fb.gv.at) - möglicherweise Schwarzfunker, abgelaufene Lizenz oder veraltete Daten"

/-- Result of the invalid format early return of `lookupCallsign`. -/
def invalidFormatResult : LookupResult :=
  { exists_ := false, data := none, source := .notFound, warning := some "Invalid callsign format" }

/-- Result of the final not found fall through of `lookupCallsign`. -/
def notFoundResult : LookupResult :=
  { exists_ := false, data := none, source := .notFound, warning := none }

/-- Sanity pattern `^[A-Z0-9]{3,10}$` of `lookupCallsign`. -/
def matchesSanity (s : String) : Bool :=
  3 ≤ s.data.length && s.data.length ≤ 10 && s.data.all isUpperAlnum

/-- Model of `lookupCallsign`, returning the result together with the cache
state after the call. -/
def lookupCallsign (env : LookupEnv) (config : CallsignConfig) (cache : LookupCache)
    (now : Nat) (callsign : String) (options : LookupOptions) :
    LookupResult × LookupCache :=
  let normalized := jsNormalize callsign
  if !matchesSanity normalized then (invalidFormatResult, cache)
  else
    let hitAndCache :=
      if !options.skipCache then getCachedLookup config cache now normalized
      else (none, cache)
    match hitAndCache with
    | (some cached, cache1) => (cached, cache1)
    | (none, cache1) =>
      let localResult := lookupLocal env normalized
      if localResult.exists_ then
        (localResult, setCachedLookup config cache1 now normalized localResult)
      else if options.localOnly then (localResult, cache1)
      else
        let isOeCallsign := hasPrefixChars ['O', 'E'] normalized
        let qrzStep : Option LookupResult :=
          if isQRZConfigured config.qrz then
            let qrzRaw := env.qrzResult normalized
            if qrzRaw.exists_ then
              some (if isOeCallsign then { qrzRaw with warning := some qrzOeWarning } else qrzRaw)
            else none
          else none
        match qrzStep with
        | some qrzHit => (qrzHit, setCachedLookup config cache1 now normalized qrzHit)
        | none =>
          let hamqthRaw := env.hamqthResult normalized
          if hamqthRaw.exists_ then
            let hamqthHit :=
              if isOeCallsign then { hamqthRaw with warning := some hamqthOeWarning } else hamqthRaw
            (hamqthHit, setCachedLookup config cache1 now normalized hamqthHit)
          else
            (notFoundResult, setCachedLookup config cache1 now normalized notFoundResult)

/-! ## Concrete instances used by the witnesses -/

/-- Network oracle answering every query with a miss. -/
def missOracle : String → LookupResult := fun _ => notFoundResult

/-- Witness environment: empty local database, both external sources miss. -/
def envEmpty : LookupEnv :=
  { dbEntries := [], dbParsedAt := "2024-01-01", qrzResult := missOracle,
    hamqthResult := missOracle }

/-- Witness configuration: caching on, one hour TTL, no QRZ credentials. -/
def cfgCaching : CallsignConfig :=
  { cacheEnabled := true, cacheTTL := 3600, qrz := none }

/-- Witness database: an empty record set. -/
def dbEmptyW : CallsignDatabase :=
  { version := "v1", sourceUrl := "fb.gv.at", parsedAt := "2024-01-01", count := 0,
    legalNotice := "", entries := [] }

/-! ## Character and string level lemmas -/

theorem char_toNat_ofNat_valid (n : Nat) (h : n.isValidChar) :
    (Char.ofNat n).toNat = n := by
  simp [Char.ofNat, h, Char.ofNatAux, Char.toNat, UInt32.toNat, BitVec.toNat_ofNatLt]

theorem toUpper_toUpper (c : Char) : Char.toUpper (Char.toUpper c) = Char.toUpper c := by
  simp only [Char.toUpper]
  split
  · next h =>
    have hv : (c.toNat - 32).isValidChar := by
      left; omega
    have ht : (Char.ofNat (c.toNat - 32)).toNat = c.toNat - 32 :=
      char_toNat_ofNat_valid _ hv
    rw [if_neg]
    omega
  · rfl

theorem char_eq_iff_toNat {a b : Char} : a = b ↔ a.toNat = b.toNat := by
  constructor
  · intro h; rw [h]
  · intro h
    exact Char.eq_of_val_eq (UInt32.eq_of_toBitVec_eq (BitVec.toNat_injective h))

theorem isWhitespace_toUpper (c : Char) :
    (Char.toUpper c).isWhitespace = c.isWhitespace := by
  have hs : (' ' : Char).toNat = 32 := rfl
  have h9 : (Char.toNat '\t') = 9 := rfl
  have h13 : (Char.toNat '\r') = 13 := rfl
  have h10 : (Char.toNat '\n') = 10 := rfl
  simp only [Char.toUpper]
  split
  · next h =>
    have hv : (c.toNat - 32).isValidChar := by left; omega
    have ht : (Char.ofNat (c.toNat - 32)).toNat = c.toNat - 32 :=
      char_toNat_ofNat_valid _ hv
    have h1 : (Char.ofNat (c.toNat - 32)).isWhitespace = false := by
      simp only [Char.isWhitespace, Bool.or_eq_false_iff, decide_eq_false_iff_not,
        char_eq_iff_toNat, ht, hs, h9, h13, h10]
      omega
    have h2 : c.isWhitespace = false := by
      simp only [Char.isWhitespace, Bool.or_eq_false_iff, decide_eq_false_iff_not,
        char_eq_iff_toNat, hs, h9, h13, h10]
      omega
    rw [h1, h2]
  · rfl

theorem map_toUpper_idem (l : List Char) :
    (l.map Char.toUpper).map Char.toUpper = l.map Char.toUpper := by
  rw [List.map_map]
  exact List.map_congr_left (fun a _ => toUpper_toUpper a)

theorem head?_dropWhile_not (p : Char → Bool) (l : List Char) :
    ∀ c ∈ (l.dropWhile p).head?, p c = false := by
  induction l with
  | nil => intro c hc; simp at hc
  | cons a t ih =>
    intro c hc
    rw [List.dropWhile_cons] at hc
    by_cases h : p a
    · exact ih c (by simpa [h] using hc)
    · simp [h] at hc
      simp [hc ▸ h]

theorem dropWhile_of_head_not (p : Char → Bool) (l : List Char)
    (h : ∀ c ∈ l.head?, p c = false) : l.dropWhile p = l := by
  cases l with
  | nil => rfl
  | cons a t =>
    have := h a (by simp)
    simp [List.dropWhile_cons, this]

theorem getLast?_dropWhile_not (p : Char → Bool) (l : List Char) :
    ∀ c ∈ (l.dropWhile p).getLast?, ∀ d ∈ l.getLast?, c = d := by
  intro c hc d hd
  obtain ⟨t, ht⟩ := List.dropWhile_suffix (l := l) p
  rw [← ht, List.getLast?_append] at hd
  have hne : l.dropWhile p ≠ [] := by
    intro h0
    rw [h0] at hc
    simp at hc
  have hdl : (l.dropWhile p).getLast? = some ((l.dropWhile p).getLast hne) :=
    List.getLast?_eq_getLast _ hne
  rw [hdl, Option.or_some] at hd
  rw [hdl] at hc
  simp at hc hd
  rw [← hc, ← hd]

theorem trimChars_drop (l : List Char) :
    (trimChars l).dropWhile Char.isWhitespace = trimChars l := by
  unfold trimChars
  apply dropWhile_of_head_not
  intro c hc
  rw [List.head?_reverse] at hc
  have hA := head?_dropWhile_not Char.isWhitespace l
  set A := l.dropWhile Char.isWhitespace with hAdef
  have hB := getLast?_dropWhile_not Char.isWhitespace A.reverse
  cases hA2 : A.reverse.getLast? with
  | none =>
    have : A.reverse = [] := by
      cases hx : A.reverse with
      | nil => rfl
      | cons x xs => rw [hx] at hA2; simp [List.getLast?_eq_getLast] at hA2
    rw [this] at hc
    simp at hc
  | some d =>
    have hcd := hB c hc d hA2
    have : A.reverse.getLast? = A.head? := by
      rw [List.getLast?_reverse]
    rw [this] at hA2
    have := hA d hA2
    rw [hcd]
    exact this

theorem trimChars_idem (l : List Char) : trimChars (trimChars l) = trimChars l := by
  have h1 : (trimChars l).dropWhile Char.isWhitespace = trimChars l := trimChars_drop l
  show ((((trimChars l).dropWhile Char.isWhitespace).reverse).dropWhile Char.isWhitespace).reverse
    = trimChars l
  rw [h1]
  have h2 : ((trimChars l).reverse).dropWhile Char.isWhitespace = (trimChars l).reverse := by
    apply dropWhile_of_head_not
    intro c hc
    unfold trimChars at hc
    rw [List.reverse_reverse] at hc
    exact head?_dropWhile_not Char.isWhitespace _ c hc
  rw [h2, List.reverse_reverse]

theorem jsToUpper_idem (s : String) : jsToUpper (jsToUpper s) = jsToUpper s := by
  unfold jsToUpper
  exact congrArg String.mk (map_toUpper_idem s.data)

theorem jsTrim_jsToUpper_comm (s : String) :
    jsToUpper (jsTrim s) = jsTrim (jsToUpper s) := by
  unfold jsToUpper jsTrim trimChars
  apply congrArg String.mk
  have hiw : (Char.isWhitespace ∘ Char.toUpper) = Char.isWhitespace := by
    funext c
    exact isWhitespace_toUpper c
  simp only [← List.map_reverse, List.dropWhile_map, hiw]

theorem jsToUpper_jsNormalize (s : String) :
    jsToUpper (jsNormalize s) = jsNormalize s := by
  unfold jsNormalize
  rw [jsTrim_jsToUpper_comm, jsToUpper_idem]

theorem jsTrim_jsNormalize (s : String) :
    jsTrim (jsNormalize s) = jsNormalize s := by
  unfold jsNormalize jsTrim
  exact congrArg String.mk (trimChars_idem _)

theorem jsNormalize_idem (s : String) :
    jsNormalize (jsNormalize s) = jsNormalize s := by
  conv_lhs => rw [jsNormalize]
  rw [jsToUpper_jsNormalize, jsTrim_jsNormalize]

/-! ## Claim theorems -/

/-- C10: the two callsign format checkers disagree on one letter suffixes:
for the callsign OE1A (prefix, district digit, single letter), the database
format check `isValidCallsign` accepts while the serving boundary
`parseCallsign` returns no parse, so `validateCallsign` rejects it. -/
theorem claim_C10 :
    isValidCallsign "OE1A" = true ∧ parseCallsign "OE1A" = none ∧
      (validateCallsign "OE1A").valid = false := by
  decide

/-- C2: a query whose normalized form fails the sanity pattern of 3 to 10
alphanumeric characters makes `lookupCallsign` return exists false with
source not found, leaving the cache untouched and consulting no source: the
outcome is the same for every environment, configuration and cache. -/
theorem claim_C2 (q : String) (h : matchesSanity (jsNormalize q) = false)
    (env : LookupEnv) (config : CallsignConfig) (cache : LookupCache) (now : Nat)
    (options : LookupOptions) :
    lookupCallsign env config cache now q options = (invalidFormatResult, cache) ∧
      invalidFormatResult.exists_ = false ∧
      invalidFormatResult.source = CallsignSource.notFound := by
  refine ⟨?_, rfl, rfl⟩
  simp only [lookupCallsign, h, Bool.not_false, if_true]

/-- Witness of C2 at the concrete query x!, whose normalized form X! fails
the sanity pattern. -/
theorem claim_C2_witness :
    lookupCallsign envEmpty cfgCaching [] 0 "x!"
        { skipCache := false, localOnly := false } = (invalidFormatResult, []) ∧
      invalidFormatResult.exists_ = false ∧
      invalidFormatResult.source = CallsignSource.notFound :=
  claim_C2 "x!" (by decide) envEmpty cfgCaching [] 0
    { skipCache := false, localOnly := false }

/-- C4: a raw row whose callsign matches the required structure and whose
name equals or contains the hidden marker normalizes to a record with
isHidden set and empty name, qth, plz and address, whatever the location
and address fields contain. -/
theorem claim_C4 (raw : RawCallsignRow)
    (hcs : (matchOeCallsign raw.callsign).isSome = true)
    (hname : raw.name = hiddenMarker ∨ containsSub hiddenMarker.data raw.name.data = true) :
    ∃ r, normalizeEntry raw = some r ∧ r.isHidden = true ∧ r.name = "" ∧
      r.qth = "" ∧ r.plz = "" ∧ r.address = "" := by
  unfold normalizeEntry
  cases hm : matchOeCallsign raw.callsign with
  | none => rw [hm] at hcs; simp at hcs
  | some pr =>
    have hh : (decide (raw.name = hiddenMarker)
        || containsSub hiddenMarker.data raw.name.data) = true := by
      rcases hname with h | h
      · simp [h]
      · simp [h]
    refine ⟨_, rfl, ?_⟩
    simp only [hh]
    simp

/-- Witness of C4: a hidden row with a populated location and address. -/
theorem claim_C4_witness :
    ∃ r, normalizeEntry ⟨"OE5ABC", "*-*-*", "4020 Linz", "Teststrasse 1", "1"⟩ = some r ∧
      r.isHidden = true ∧ r.name = "" ∧ r.qth = "" ∧ r.plz = "" ∧ r.address = "" :=
  claim_C4 _ (by decide) (Or.inl rfl)

theorem append_isEmpty_false_left {α : Type} (l r : List α) (h : l.isEmpty = false) :
    (l ++ r).isEmpty = false := by
  cases l with
  | nil => simp at h
  | cons a t => rfl

theorem append_isEmpty_false_right {α : Type} (l r : List α) (h : r.isEmpty = false) :
    (l ++ r).isEmpty = false := by
  cases l with
  | nil => simpa using h
  | cons a t => rfl

theorem string_length_data (s : String) : s.length = s.data.length := rfl

theorem validateSuffix_shape_invalid (n : String) (hn : jsNormalize n = n)
    (h : ¬(n.data.all isUpperAZ = true)
      ∨ (hasPrefixChars ['X'] n = true ∧ (n.data.length < 2 ∨ 4 < n.data.length))
      ∨ (hasPrefixChars ['X'] n = false ∧ (n.data.length < 2 ∨ 3 < n.data.length))) :
    (validateSuffix n (hasPrefixChars ['X'] n)).valid = false := by
  unfold validateSuffix
  rw [hn]
  by_cases he : n = ""
  · simp [he]
  · rw [if_neg he]
    show List.isEmpty (_ ++ _) = false
    rcases h with h1 | ⟨hb, h2 | h2⟩ | ⟨hb, h2 | h2⟩
    · apply append_isEmpty_false_left
      apply append_isEmpty_false_left
      apply append_isEmpty_false_left
      apply append_isEmpty_false_left
      rw [Bool.not_eq_true] at h1
      simp [h1]
    · apply append_isEmpty_false_left
      apply append_isEmpty_false_left
      apply append_isEmpty_false_left
      apply append_isEmpty_false_right
      simp [hb, suffixRuleMin]
      exact h2
    · apply append_isEmpty_false_left
      apply append_isEmpty_false_left
      apply append_isEmpty_false_right
      simp [hb, suffixRuleMax]
      exact h2
    · apply append_isEmpty_false_left
      apply append_isEmpty_false_left
      apply append_isEmpty_false_left
      apply append_isEmpty_false_right
      simp [hb, suffixRuleMin]
      exact h2
    · apply append_isEmpty_false_left
      apply append_isEmpty_false_left
      apply append_isEmpty_false_right
      simp [hb, suffixRuleMax]
      exact h2

/-- C8: a suffix whose normalized form fails the shape validation (a
character outside A to Z, or a length outside 2 to 3 for personal suffixes
and outside 2 to 4 for suffixes starting with the club letter X) makes
`checkAvailability` answer not available anywhere, with empty district and
holder lists, for every database, so without consulting it. -/
theorem claim_C8 (suffix : String) (district : Option Int)
    (h : ¬((jsNormalize suffix).data.all isUpperAZ = true)
      ∨ (hasPrefixChars ['X'] (jsNormalize suffix) = true ∧
          ((jsNormalize suffix).data.length < 2 ∨ 4 < (jsNormalize suffix).data.length))
      ∨ (hasPrefixChars ['X'] (jsNormalize suffix) = false ∧
          ((jsNormalize suffix).data.length < 2 ∨ 3 < (jsNormalize suffix).data.length)))
    (entries : List ParsedCallsign) :
    checkAvailability entries suffix district =
      { suffix := jsNormalize suffix
        available := false
        available_districts := []
        taken_districts := []
        taken_by := [] } := by
  have hv := validateSuffix_shape_invalid (jsNormalize suffix) (jsNormalize_idem suffix) h
  unfold checkAvailability
  simp only [hv, Bool.not_false, if_true]

/-- Witness of C8 at the suffix A1, which contains a digit. -/
theorem claim_C8_witness :
    checkAvailability [] "A1" none =
      { suffix := jsNormalize "A1"
        available := false
        available_districts := []
        taken_districts := []
        taken_by := [] } :=
  claim_C8 "A1" none (Or.inl (by decide)) []

/-- C5: when at least two tokens survive the title stripping, normalizeName
takes the first remaining token as the surname and the remaining tokens as
the given name, producing the display cased given name followed by the
surname; in particular MUSTER HANS gives Hans Muster and MUSTER HANS DR.
gives Hans Muster with the title stripped. -/
theorem claim_C5 (name : String) (h : 2 ≤ (nameTokens name).length) :
    normalizeName name =
        strCat [formatName (joinWith " " ((nameTokens name).drop 1)), " ",
          formatName ((nameTokens name).headD "")] ∧
      normalizeName "MUSTER HANS" = "Hans Muster" ∧
      normalizeName "MUSTER HANS DR." = "Hans Muster" := by
  refine ⟨?_, by decide, by decide⟩
  have hne : name ≠ "" := by
    intro e
    subst e
    revert h
    decide
  have hnm : name ≠ hiddenMarker := by
    intro e
    subst e
    revert h
    decide
  have hb : (decide (name = "") || decide (name = hiddenMarker)) = false := by
    simp [hne, hnm]
  have hl0 : ¬((nameTokens name).length = 0) := by omega
  simp only [normalizeName, hb, Bool.false_eq_true, if_false, if_neg hl0, if_pos h]

/-- Witness of C5 at the name MUSTER HANS DR., which keeps two tokens. -/
theorem claim_C5_witness :
    normalizeName "MUSTER HANS DR." =
        strCat [formatName (joinWith " " ((nameTokens "MUSTER HANS DR.").drop 1)), " ",
          formatName ((nameTokens "MUSTER HANS DR.").headD "")] ∧
      normalizeName "MUSTER HANS" = "Hans Muster" ∧
      normalizeName "MUSTER HANS DR." = "Hans Muster" :=
  claim_C5 "MUSTER HANS DR." (by decide)

/-- C6: `sortEntries` returns a rearrangement of the input list (the input
itself is untouched, a fresh sequence is produced) that is non decreasing
under the lexicographic string order on the callsign field. -/
theorem claim_C6 (entries : List ParsedCallsign) :
    List.Sorted (fun a b : ParsedCallsign => a.callsign ≤ b.callsign) (sortEntries entries) ∧
      List.Perm (sortEntries entries) entries := by
  constructor
  · have hs := @List.sorted_mergeSort ParsedCallsign
      (fun a b : ParsedCallsign => decide (a.callsign ≤ b.callsign))
      (fun a b c hab hbc => by
        simp only [decide_eq_true_eq] at hab hbc ⊢
        exact le_trans hab hbc)
      (fun a b => by
        simpa using le_total a.callsign b.callsign)
      entries
    exact hs.imp (fun hab => of_decide_eq_true hab)
  · exact List.mergeSort_perm entries _

theorem cacheGet_cacheSet (cache : LookupCache) (k : String) (v : CacheEntry) :
    cacheGet (cacheSet cache k v) k = some v := by
  simp [cacheGet, cacheSet]

theorem cacheGet_setCachedLookup (config : CallsignConfig) (cache : LookupCache)
    (now : Nat) (n : String) (r : LookupResult)
    (hc : config.cacheEnabled = true) (hn : jsToUpper n = n) :
    cacheGet (setCachedLookup config cache now n r) n = some { result := r, timestamp := now } := by
  unfold setCachedLookup
  rw [hc, hn]
  simp only [Bool.not_true, Bool.false_eq_true, if_false]
  exact cacheGet_cacheSet cache n _

theorem getCachedLookup_some {config : CallsignConfig} {cache : LookupCache}
    {now : Nat} {cs : String} {r : LookupResult} {c1 : LookupCache}
    (h : getCachedLookup config cache now cs = (some r, c1)) :
    c1 = cache ∧ ∃ e, cacheGet cache (jsToUpper cs) = some e ∧ e.result = r := by
  unfold getCachedLookup at h
  split at h
  · simp at h
  · split at h
    · simp at h
    · next e he =>
      split at h
      · simp at h
      · simp only [Prod.mk.injEq, Option.some.injEq] at h
        exact ⟨h.2.symm, e, he, h.1⟩

/-- C1 counterexample: with caching enabled, a local only lookup of a
callsign absent from the local database reaches its terminal not found
result, yet nothing is written to the cache under the normalized key: the
claimed caching of every terminal result fails on the local only miss path. -/
theorem claim_C1_counterexample :
    cfgCaching.cacheEnabled = true ∧
      (lookupCallsign envEmpty cfgCaching [] 0 "OE1ABC"
        { skipCache := false, localOnly := true }).1 = notFoundResult ∧
      cacheGet (lookupCallsign envEmpty cfgCaching [] 0 "OE1ABC"
        { skipCache := false, localOnly := true }).2 (jsNormalize "OE1ABC") = none :=
  ⟨rfl, by decide, by decide⟩

/-- C1 amended: with caching enabled and a query passing the sanity check,
`lookupCallsign` leaves its returned result in the cache under the
normalized key for local hits, external hits, cache hits and the not found
outcome of the full chain; the one exception forced by the counterexample
is the local only request whose local lookup misses, which returns without
writing. -/
theorem claim_C1 (env : LookupEnv) (config : CallsignConfig) (cache : LookupCache)
    (now : Nat) (q : String) (options : LookupOptions)
    (hc : config.cacheEnabled = true)
    (hs : matchesSanity (jsNormalize q) = true)
    (hl : ¬(options.localOnly = true ∧ (lookupLocal env (jsNormalize q)).exists_ = false)) :
    ∃ e : CacheEntry,
      cacheGet (lookupCallsign env config cache now q options).2 (jsNormalize q) = some e ∧
        e.result = (lookupCallsign env config cache now q options).1 := by
  have hup : jsToUpper (jsNormalize q) = jsNormalize q := jsToUpper_jsNormalize q
  simp only [lookupCallsign, hs, Bool.not_true, Bool.false_eq_true, if_false]
  split
  · next cached cache1 heq =>
    by_cases hsk : options.skipCache
    · rw [hsk] at heq
      simp at heq
    · rw [Bool.not_eq_true] at hsk
      rw [hsk] at heq
      simp only [Bool.not_false, if_true] at heq
      obtain ⟨hc1, e, hg, hr⟩ := getCachedLookup_some heq
      rw [hup] at hg
      exact ⟨e, hc1 ▸ hg, hr⟩
  · next cache1 heq =>
    split
    · exact ⟨_, cacheGet_setCachedLookup config cache1 now _ _ hc hup, rfl⟩
    · next hmiss =>
      split
      · next hlo =>
        rw [Bool.not_eq_true] at hmiss
        exact absurd ⟨hlo, hmiss⟩ hl
      · split
        · exact ⟨_, cacheGet_setCachedLookup config cache1 now _ _ hc hup, rfl⟩
        · split
          · exact ⟨_, cacheGet_setCachedLookup config cache1 now _ _ hc hup, rfl⟩
          · exact ⟨_, cacheGet_setCachedLookup config cache1 now _ _ hc hup, rfl⟩

/-- Witness of C1 at a full chain miss with caching enabled: the not found
result is cached under the normalized key. -/
theorem claim_C1_witness :
    ∃ e : CacheEntry,
      cacheGet (lookupCallsign envEmpty cfgCaching [] 0 "OE1ABC"
          { skipCache := false, localOnly := false }).2 (jsNormalize "OE1ABC") = some e ∧
        e.result = (lookupCallsign envEmpty cfgCaching [] 0 "OE1ABC"
          { skipCache := false, localOnly := false }).1 :=
  claim_C1 envEmpty cfgCaching [] 0 "OE1ABC" { skipCache := false, localOnly := false }
    rfl (by decide) (by decide)

theorem lookupCallsign_skipCache_writes (env : LookupEnv) (config : CallsignConfig)
    (cache : LookupCache) (now : Nat) (q : String)
    (hc : config.cacheEnabled = true)
    (hs : matchesSanity (jsNormalize q) = true) :
    ∃ r : LookupResult,
      lookupCallsign env config cache now q { skipCache := true, localOnly := false } =
        (r, cacheSet cache (jsNormalize q) { result := r, timestamp := now }) := by
  have hup : jsToUpper (jsNormalize q) = jsNormalize q := jsToUpper_jsNormalize q
  have hset : ∀ r, setCachedLookup config cache now (jsNormalize q) r =
      cacheSet cache (jsNormalize q) { result := r, timestamp := now } := by
    intro r
    unfold setCachedLookup
    rw [hc, hup]
    simp
  simp only [lookupCallsign, hs, Bool.not_true, Bool.false_eq_true, if_false]
  split
  · exact ⟨_, by rw [hset]⟩
  · split
    · exact ⟨_, by rw [hset]⟩
    · split
      · exact ⟨_, by rw [hset]⟩
      · exact ⟨_, by rw [hset]⟩

theorem lookupCallsign_cache_hit (env : LookupEnv) (config : CallsignConfig)
    (c : LookupCache) (now : Nat) (q : String) (r : LookupResult) (ts : Nat)
    (hc : config.cacheEnabled = true)
    (hs : matchesSanity (jsNormalize q) = true)
    (hg : cacheGet c (jsToUpper (jsNormalize q)) = some { result := r, timestamp := ts })
    (ht : now - ts ≤ config.cacheTTL * 1000) :
    lookupCallsign env config c now q { skipCache := false, localOnly := false } = (r, c) := by
  simp only [lookupCallsign, hs, Bool.not_true, Bool.false_eq_true, if_false]
  have hget : getCachedLookup config c now (jsNormalize q) = (some r, c) := by
    unfold getCachedLookup
    rw [hc, hg]
    simp only [Bool.not_true, Bool.false_eq_true, if_false]
    rw [if_neg (by omega)]
  simp only [Bool.not_false, if_true, hget]

/-- C9: the skipCache option bypasses only the cache read: with caching
enabled and a valid (default, not local only) query, a skipCache lookup
still writes its resolved result into the cache under the normalized key
with the current timestamp, and a subsequent lookup without skipCache
within the TTL returns exactly the cached value. -/
theorem claim_C9 (env : LookupEnv) (config : CallsignConfig) (cache : LookupCache)
    (now1 now2 : Nat) (q : String)
    (hc : config.cacheEnabled = true)
    (hs : matchesSanity (jsNormalize q) = true)
    (ht : now2 - now1 ≤ config.cacheTTL * 1000) :
    cacheGet (lookupCallsign env config cache now1 q
        { skipCache := true, localOnly := false }).2 (jsNormalize q) =
      some { result := (lookupCallsign env config cache now1 q
        { skipCache := true, localOnly := false }).1, timestamp := now1 } ∧
      (lookupCallsign env config
        (lookupCallsign env config cache now1 q { skipCache := true, localOnly := false }).2
        now2 q { skipCache := false, localOnly := false }).1 =
      (lookupCallsign env config cache now1 q { skipCache := true, localOnly := false }).1 := by
  obtain ⟨r, hr⟩ := lookupCallsign_skipCache_writes env config cache now1 q hc hs
  rw [hr]
  have hg : cacheGet (cacheSet cache (jsNormalize q) { result := r, timestamp := now1 })
      (jsToUpper (jsNormalize q)) = some { result := r, timestamp := now1 } := by
    rw [jsToUpper_jsNormalize]
    exact cacheGet_cacheSet cache (jsNormalize q) _
  constructor
  · exact cacheGet_cacheSet cache (jsNormalize q) _
  · have h2 := lookupCallsign_cache_hit env config
      (cacheSet cache (jsNormalize q) { result := r, timestamp := now1 }) now2 q r now1 hc hs hg ht
    exact congrArg Prod.fst h2

/-- Witness of C9: a skipCache miss on an empty database is cached at time
five and the follow up lookup at time ten returns it. -/
theorem claim_C9_witness :
    cacheGet (lookupCallsign envEmpty cfgCaching [] 5 "OE1ABC"
        { skipCache := true, localOnly := false }).2 (jsNormalize "OE1ABC") =
      some { result := (lookupCallsign envEmpty cfgCaching [] 5 "OE1ABC"
        { skipCache := true, localOnly := false }).1, timestamp := 5 } ∧
      (lookupCallsign envEmpty cfgCaching
        (lookupCallsign envEmpty cfgCaching [] 5 "OE1ABC"
          { skipCache := true, localOnly := false }).2
        10 "OE1ABC" { skipCache := false, localOnly := false }).1 =
      (lookupCallsign envEmpty cfgCaching [] 5 "OE1ABC"
        { skipCache := true, localOnly := false }).1 :=
  claim_C9 envEmpty cfgCaching [] 5 10 "OE1ABC" rfl (by decide) (by decide)

theorem addCandidate_out_noX (st : CandState) (sfx lab : String)
    (hst : ∀ c ∈ st.out, hasPrefixChars ['X'] c.1 = false) :
    ∀ c ∈ (addCandidate true st sfx lab).out, hasPrefixChars ['X'] c.1 = false := by
  intro c hc
  unfold addCandidate at hc
  dsimp only at hc
  split at hc
  · exact hst c hc
  · split at hc
    · exact hst c hc
    · split at hc
      · exact hst c hc
      · next hx =>
        split at hc
        · exact hst c hc
        · simp only [List.mem_append, List.mem_singleton] at hc
          rcases hc with hc | hc
          · exact hst c hc
          · subst hc
            simpa using hx

theorem foldl_addCandidate_noX (attempts : List (String × String)) (st : CandState)
    (hst : ∀ c ∈ st.out, hasPrefixChars ['X'] c.1 = false) :
    ∀ c ∈ (attempts.foldl (fun st a => addCandidate true st a.1 a.2) st).out,
      hasPrefixChars ['X'] c.1 = false := by
  induction attempts generalizing st with
  | nil => exact hst
  | cons a rest ih =>
    exact ih (addCandidate true st a.1 a.2) (addCandidate_out_noX st a.1 a.2 hst)

theorem generateCandidatesFromName_noX (name : String) :
    ∀ c ∈ generateCandidatesFromName name true, hasPrefixChars ['X'] c.1 = false := by
  unfold generateCandidatesFromName
  dsimp only
  split
  · intro c hc
    simp at hc
  · exact foldl_addCandidate_noX _ _ (by intro c hc; simp at hc)

/-- C7: with club exclusion requested, no suggestion returned by
`generateSuggestions` has a suffix starting with the reserved club letter X,
and every returned suggestion carries a phonetic score at or above the
requested minimum. -/
theorem claim_C7 (entries : List ParsedCallsign) (opts : SuggestOptions)
    (h : opts.exclude_club = true) :
    ∀ s ∈ generateSuggestions entries opts,
      hasPrefixChars ['X'] s.suffix = false ∧ opts.min_phonetic_score ≤ s.phonetic_score := by
  intro s hs
  unfold generateSuggestions at hs
  dsimp only at hs
  have hs1 := List.mem_of_mem_take hs
  have hs2 := (List.mergeSort_perm _ (suggestionLe opts.preferred_district)).mem_iff.mp hs1
  rw [List.mem_filterMap] at hs2
  obtain ⟨a, ha, hfa⟩ := hs2
  rw [h] at ha
  split at hfa
  · exact absurd hfa (by simp)
  · next hmin =>
    split at hfa
    · exact absurd hfa (by simp)
    · rw [Option.some.injEq] at hfa
      subst hfa
      refine ⟨?_, ?_⟩
      · exact generateCandidatesFromName_noX opts.name a ha
      · exact le_of_not_lt hmin

/-- Witness of C7 at the name Hans Muster over the empty database with the
one half minimum score. -/
theorem claim_C7_witness :
    (generateSuggestions []
        { name := "Hans Muster", preferred_district := none, max_results := 10,
          exclude_club := true, min_phonetic_score := 1 / 2 }).all
      (fun s => !(hasPrefixChars ['X'] s.suffix) &&
        decide ((1 : ℚ) / 2 ≤ s.phonetic_score)) = true := by
  rw [List.all_eq_true]
  intro s hs
  have h := claim_C7 []
    { name := "Hans Muster", preferred_district := none, max_results := 10,
      exclude_club := true, min_phonetic_score := 1 / 2 } rfl s hs
  simp only [Bool.and_eq_true, Bool.not_eq_true', decide_eq_true_eq]
  exact ⟨h.1, h.2⟩

theorem noEntriesErr_head (d : Int) : (noEntriesErr d).data.head? = some 'N' := rfl

theorem veryFewWarn_head (d : Int) (m : Nat) : (veryFewWarn d m).data.head? = some 'V' := rfl

theorem duplicateErr_head (cs : String) : (duplicateErr cs).data.head? = some 'D' := rfl

theorem invalidFormatErr_head (cs : String) : (invalidFormatErr cs).data.head? = some 'I' := rfl

theorem mismatchErr_head (cs : String) (x : Option Nat) (g : Int) :
    (mismatchErr cs x g).data.head? = some 'D' := rfl

theorem invalidDistrictErr_head (d : Int) : (invalidDistrictErr d).data.head? = some 'I' := rfl

theorem entryPassErrors_head (l : List ParsedCallsign) (seen : List String) :
    ∀ e ∈ entryPassErrors l seen, e.data.head? = some 'D' ∨ e.data.head? = some 'I' := by
  induction l generalizing seen with
  | nil => intro e he; simp [entryPassErrors] at he
  | cons a rest ih =>
    intro e he
    unfold entryPassErrors at he
    simp only [List.mem_append] at he
    rcases he with ((he | he) | he) | he
    · split at he
      · simp only [List.mem_singleton] at he
        subst he
        exact Or.inl (duplicateErr_head _)
      · simp at he
    · split at he
      · simp only [List.mem_singleton] at he
        subst he
        exact Or.inr (invalidFormatErr_head _)
      · simp at he
    · split at he
      · next n hn =>
        split at he
        · simp at he
        · simp only [List.mem_singleton] at he
          subst he
          exact Or.inl (mismatchErr_head _ _ _)
      · simp only [List.mem_singleton] at he
        subst he
        exact Or.inl (mismatchErr_head _ _ _)
    · exact ih _ e he

theorem mem_invalidDistrictKeyErrors (entries : List ParsedCallsign) :
    ∀ e ∈ invalidDistrictKeyErrors entries, e.data.head? = some 'I' := by
  intro e he
  unfold invalidDistrictKeyErrors at he
  simp only [List.mem_map] at he
  obtain ⟨d, -, hd⟩ := he
  subst hd
  exact invalidDistrictErr_head d

theorem mem_districtErrors_iff (entries : List ParsedCallsign) (e : String) :
    e ∈ districtErrors entries ↔
      ∃ d : Int, d ∈ ([1, 2, 3, 4, 5, 6, 7, 8, 9] : List Int) ∧
        byDistrictCount entries d = 0 ∧ e = noEntriesErr d := by
  unfold districtErrors
  simp only [List.mem_flatten, List.mem_map]
  constructor
  · rintro ⟨l, ⟨d, hd, hl⟩, hel⟩
    subst hl
    split at hel
    · next hz =>
      simp only [List.mem_singleton] at hel
      exact ⟨d, hd, hz, hel⟩
    · simp at hel
  · rintro ⟨d, hd, hz, he⟩
    refine ⟨[noEntriesErr d], ⟨d, hd, ?_⟩, by simp [he]⟩
    rw [if_pos hz]

theorem mem_districtWarns_iff (entries : List ParsedCallsign) (e : String) :
    e ∈ districtWarns entries ↔
      ∃ d : Int, d ∈ ([1, 2, 3, 4, 5, 6, 7, 8, 9] : List Int) ∧
        byDistrictCount entries d ≠ 0 ∧ byDistrictCount entries d < 100 ∧
        e = veryFewWarn d (byDistrictCount entries d) := by
  unfold districtWarns
  simp only [List.mem_flatten, List.mem_map]
  constructor
  · rintro ⟨l, ⟨d, hd, hl⟩, hel⟩
    subst hl
    split at hel
    · simp at hel
    · next hz =>
      split at hel
      · next hlt =>
        simp only [List.mem_singleton] at hel
        exact ⟨d, hd, hz, hlt, hel⟩
      · simp at hel
  · rintro ⟨d, hd, hz, hlt, he⟩
    refine ⟨[veryFewWarn d (byDistrictCount entries d)], ⟨d, hd, ?_⟩, by simp [he]⟩
    rw [if_neg hz, if_pos hlt]

theorem noEntriesErr_inj_digits :
    ∀ d ∈ ([1, 2, 3, 4, 5, 6, 7, 8, 9] : List Int),
      ∀ e ∈ ([1, 2, 3, 4, 5, 6, 7, 8, 9] : List Int),
        noEntriesErr d = noEntriesErr e → d = e := by
  decide

theorem toString_inj_digits :
    ∀ d ∈ ([1, 2, 3, 4, 5, 6, 7, 8, 9] : List Int),
      ∀ e ∈ ([1, 2, 3, 4, 5, 6, 7, 8, 9] : List Int),
        toString d = toString e → d = e := by
  decide

theorem toString_digit_length :
    ∀ d ∈ ([1, 2, 3, 4, 5, 6, 7, 8, 9] : List Int), (toString d).data.length = 1 := by
  decide

theorem veryFewWarn_inj_digits (d e : Int)
    (hd : d ∈ ([1, 2, 3, 4, 5, 6, 7, 8, 9] : List Int))
    (he : e ∈ ([1, 2, 3, 4, 5, 6, 7, 8, 9] : List Int))
    (m n : Nat) (h : veryFewWarn d m = veryFewWarn e n) : d = e := by
  have hdata := congrArg String.data h
  unfold veryFewWarn strCat at hdata
  simp only [List.map, List.flatten] at hdata
  have h2 := List.append_cancel_left hdata
  have h3 := List.append_inj h2
    (by rw [toString_digit_length d hd, toString_digit_length e he])
  exact toString_inj_digits d hd e he (String.ext h3.1)

theorem entryPassWarns_head (l : List ParsedCallsign) :
    ∀ e ∈ entryPassWarns l, e.data.head? = some 'U' := by
  induction l with
  | nil => intro e he; simp [entryPassWarns] at he
  | cons a rest ih =>
    intro e he
    unfold entryPassWarns at he
    simp only [List.mem_append] at he
    rcases he with (he | he) | he
    · split at he
      · simp only [List.mem_singleton] at he
        subst he
        rfl
      · simp at he
    · split at he
      · simp only [List.mem_singleton] at he
        subst he
        rfl
      · simp at he
    · exact ih e he

theorem validateDatabase_errors (db : CallsignDatabase) :
    (validateDatabase db).errors =
      entryPassErrors db.entries [] ++ districtErrors db.entries
        ++ invalidDistrictKeyErrors db.entries := rfl

theorem validateDatabase_warnings (db : CallsignDatabase) :
    (validateDatabase db).warnings =
      entryPassWarns db.entries
        ++ (if db.entries.length < 5000 then
          [strCat ["Unusually low entry count: ", toString db.entries.length, " (expected ~6000+)"]]
        else [])
        ++ districtWarns db.entries
        ++ (if byLicenseClassCount db.entries 1 = 0 || byLicenseClassCount db.entries 1 < 1000 then
          [strCat ["Unusually few class 1 licenses: ", toString (byLicenseClassCount db.entries 1)]]
        else [])
        ++ (if db.entries.length ≠ 0 ∧
            (30 : ℚ) < ((statsOf db).hiddenEntries : ℚ) / (db.entries.length : ℚ) * 100 then
          [strCat ["High percentage of hidden entries: ",
            qToFixed1 (((statsOf db).hiddenEntries : ℚ) / (db.entries.length : ℚ) * 100), "%"]]
        else []) := rfl

theorem count_ite_singleton_ne {a b : String} (hne : b ≠ a) (c : Prop) [Decidable c] :
    (if c then [b] else []).count a = 0 := by
  split
  · rw [List.count_eq_zero]
    intro hmem
    simp only [List.mem_singleton] at hmem
    exact hne hmem.symm
  · rfl

/-- C3: for each district 1 to 9 the validator emits the no entries error
exactly when the database has zero records for it, and the very few entries
warning exactly when it has between 1 and 99; with 100 or more it emits
neither; a database with no district 5 record carries exactly one
occurrence of the district 5 no entries error in its error list. -/
theorem claim_C3 (db : CallsignDatabase) (d : Int) (hd1 : 1 ≤ d) (hd9 : d ≤ 9) :
    (noEntriesErr d ∈ (validateDatabase db).errors ↔ byDistrictCount db.entries d = 0) ∧
      ((∃ m : Nat, veryFewWarn d m ∈ (validateDatabase db).warnings) ↔
        (1 ≤ byDistrictCount db.entries d ∧ byDistrictCount db.entries d ≤ 99)) ∧
      (byDistrictCount db.entries 5 = 0 →
        ((validateDatabase db).errors).count (noEntriesErr 5) = 1) := by
  have hdmem : d ∈ ([1, 2, 3, 4, 5, 6, 7, 8, 9] : List Int) := by
    interval_cases d <;> decide
  refine ⟨?_, ?_, ?_⟩
  · rw [validateDatabase_errors]
    constructor
    · intro hmem
      simp only [List.mem_append] at hmem
      rcases hmem with (hmem | hmem) | hmem
      · exfalso
        have hh := entryPassErrors_head _ _ _ hmem
        rcases hh with hh | hh <;> rw [noEntriesErr_head] at hh <;> simp at hh
      · rw [mem_districtErrors_iff] at hmem
        obtain ⟨e, he, hz, heq⟩ := hmem
        have hde := noEntriesErr_inj_digits d hdmem e he heq
        rw [hde]
        exact hz
      · exfalso
        have hh := mem_invalidDistrictKeyErrors _ _ hmem
        rw [noEntriesErr_head] at hh
        simp at hh
    · intro hz
      simp only [List.mem_append]
      left; right
      rw [mem_districtErrors_iff]
      exact ⟨d, hdmem, hz, rfl⟩
  · rw [validateDatabase_warnings]
    constructor
    · rintro ⟨m, hm⟩
      simp only [List.mem_append] at hm
      rcases hm with (((hm | hm) | hm) | hm) | hm
      · exfalso
        have hh := entryPassWarns_head _ _ hm
        rw [veryFewWarn_head] at hh
        simp at hh
      · exfalso
        split at hm
        · simp only [List.mem_singleton] at hm
          have hh := congrArg (fun s => s.data.head?) hm
          simp only [veryFewWarn_head] at hh
          have hu : (strCat ["Unusually low entry count: ", toString db.entries.length,
              " (expected ~6000+)"]).data.head? = some 'U' := rfl
          rw [hu] at hh
          simp at hh
        · simp at hm
      · rw [mem_districtWarns_iff] at hm
        obtain ⟨e, he, hz, hlt, heq⟩ := hm
        have hde := veryFewWarn_inj_digits d e hdmem he m _ heq
        rw [hde]
        omega
      · exfalso
        split at hm
        · simp only [List.mem_singleton] at hm
          have hh := congrArg (fun s => s.data.head?) hm
          simp only [veryFewWarn_head] at hh
          have hu : (strCat ["Unusually few class 1 licenses: ",
              toString (byLicenseClassCount db.entries 1)]).data.head? = some 'U' := rfl
          rw [hu] at hh
          simp at hh
        · simp at hm
      · exfalso
        split at hm
        · simp only [List.mem_singleton] at hm
          have hh := congrArg (fun s => s.data.head?) hm
          simp only [veryFewWarn_head] at hh
          have hu : (strCat ["High percentage of hidden entries: ",
              qToFixed1 (((statsOf db).hiddenEntries : ℚ) / (db.entries.length : ℚ) * 100),
              "%"]).data.head? = some 'H' := rfl
          rw [hu] at hh
          simp at hh
        · simp at hm
    · rintro ⟨hz1, hz99⟩
      refine ⟨byDistrictCount db.entries d, ?_⟩
      simp only [List.mem_append]
      left; left; right
      rw [mem_districtWarns_iff]
      exact ⟨d, hdmem, by omega, by omega, rfl⟩
  · intro hz
    rw [validateDatabase_errors, List.count_append, List.count_append]
    have c1 : (entryPassErrors db.entries []).count (noEntriesErr 5) = 0 := by
      rw [List.count_eq_zero]
      intro hmem
      have hh := entryPassErrors_head _ _ _ hmem
      rcases hh with hh | hh <;> rw [noEntriesErr_head] at hh <;> simp at hh
    have c3 : (invalidDistrictKeyErrors db.entries).count (noEntriesErr 5) = 0 := by
      rw [List.count_eq_zero]
      intro hmem
      have hh := mem_invalidDistrictKeyErrors _ _ hmem
      rw [noEntriesErr_head] at hh
      simp at hh
    have c2 : (districtErrors db.entries).count (noEntriesErr 5) = 1 := by
      unfold districtErrors
      simp only [List.map_cons, List.map_nil, List.flatten_cons, List.flatten_nil,
        List.count_append]
      rw [if_pos hz]
      rw [count_ite_singleton_ne (by decide : noEntriesErr (1 : Int) ≠ noEntriesErr 5),
        count_ite_singleton_ne (by decide : noEntriesErr (2 : Int) ≠ noEntriesErr 5),
        count_ite_singleton_ne (by decide : noEntriesErr (3 : Int) ≠ noEntriesErr 5),
        count_ite_singleton_ne (by decide : noEntriesErr (4 : Int) ≠ noEntriesErr 5),
        count_ite_singleton_ne (by decide : noEntriesErr (6 : Int) ≠ noEntriesErr 5),
        count_ite_singleton_ne (by decide : noEntriesErr (7 : Int) ≠ noEntriesErr 5),
        count_ite_singleton_ne (by decide : noEntriesErr (8 : Int) ≠ noEntriesErr 5),
        count_ite_singleton_ne (by decide : noEntriesErr (9 : Int) ≠ noEntriesErr 5)]
      simp
    rw [c1, c2, c3]

/-- Witness of C3 at district five over the empty database, which misses
every district. -/
theorem claim_C3_witness :
    (noEntriesErr 5 ∈ (validateDatabase dbEmptyW).errors ↔
        byDistrictCount dbEmptyW.entries 5 = 0) ∧
      ((∃ m : Nat, veryFewWarn 5 m ∈ (validateDatabase dbEmptyW).warnings) ↔
        (1 ≤ byDistrictCount dbEmptyW.entries 5 ∧ byDistrictCount dbEmptyW.entries 5 ≤ 99)) ∧
      (byDistrictCount dbEmptyW.entries 5 = 0 →
        ((validateDatabase dbEmptyW).errors).count (noEntriesErr 5) = 1) :=
  claim_C3 dbEmptyW 5 (by decide) (by decide)
